import Mathlib

/- Verification of the zxplorer quizx-wasm wrapper (src/quizx-wasm/src/lib.rs).

   The wrapper delegates diagram storage and the rewrite rules to the quizx
   library, which is not part of this repository's sources; those parts are
   modelled from the spec (spec.md): the diagram store (spec sections 3 and 4.1)
   and the rewrite rules and strategies (sections 4.2 and 4.3).

   Machine values: vertex ids (usize) and u8 kind codes are Nat; i64 phase
   components are Int with the explicit i64 range checks the Rust parser makes;
   exact rational phases are Rat (Rational64 keeps lowest terms, as does Rat).
   The f64 layout coordinates are modelled as Rat: they are purely cosmetic and
   are never read by any rewrite rule (spec section 3), and no claim depends on
   float rounding.

   Store operations that look up an id fail with a defined error when the id
   does not exist (spec section 3); the failure is modelled as Option.none.  The
   Rust wrapper methods call these store operations through APIs that return
   unit, so a store failure cannot surface as a Result value there; the `none`
   and `OpOut.panic` outcomes below model that the call does not return normally
   (in the compiled wrapper a panic, reported through the panic hook). -/

inductive VertexType where
  | Boundary
  | Z
  | X
  | H
deriving DecidableEq

inductive EType where
  | N
  | H
  | Wio
deriving DecidableEq

structure VData where
  kind : VertexType
  phase : Rat
  row : Rat
  col : Rat
deriving DecidableEq

structure Graph where
  vertices : List (Nat × VData)
  edges : List (Nat × Nat × EType)
  freshId : Nat
deriving DecidableEq

def Graph.new : Graph := ⟨[], [], 0⟩

/-- Modelled from the spec: id lookup into the diagram store (section 3). -/
def Graph.vlookup (g : Graph) (v : Nat) : Option VData :=
  (g.vertices.find? (fun p => p.1 == v)).map Prod.snd

def Graph.hasV (g : Graph) (v : Nat) : Bool :=
  (g.vlookup v).isSome

/-- Modelled from the spec: `add_vertex(kind) -> id` (section 4.1) appends a
    fresh vertex with phase 0 at position (0, 0); ids are allocated
    monotonically, which section 3 permits. -/
def Graph.addV (g : Graph) (vt : VertexType) : Graph × Nat :=
  (⟨g.vertices ++ [(g.freshId, ⟨vt, 0, 0, 0⟩)], g.edges, g.freshId + 1⟩, g.freshId)

/-- Modelled from the spec: `set_phase(id, rational)` (section 4.1), failing
    when the id does not exist (section 3). -/
def Graph.setPhase (g : Graph) (v : Nat) (q : Rat) : Option Graph :=
  if g.hasV v then
    some ⟨g.vertices.map (fun p => if p.1 == v then (p.1, { p.2 with phase := q }) else p),
          g.edges, g.freshId⟩
  else none

/-- Modelled from the spec: `set_kind(id, kind)` (section 4.1). -/
def Graph.setVKind (g : Graph) (v : Nat) (vt : VertexType) : Option Graph :=
  if g.hasV v then
    some ⟨g.vertices.map (fun p => if p.1 == v then (p.1, { p.2 with kind := vt }) else p),
          g.edges, g.freshId⟩
  else none

/-- Modelled from the spec: the row half of `set_position` (section 4.1). -/
def Graph.setRow (g : Graph) (v : Nat) (r : Rat) : Option Graph :=
  if g.hasV v then
    some ⟨g.vertices.map (fun p => if p.1 == v then (p.1, { p.2 with row := r }) else p),
          g.edges, g.freshId⟩
  else none

/-- Modelled from the spec: the column (qubit) half of `set_position`. -/
def Graph.setQubit (g : Graph) (v : Nat) (c : Rat) : Option Graph :=
  if g.hasV v then
    some ⟨g.vertices.map (fun p => if p.1 == v then (p.1, { p.2 with col := c }) else p),
          g.edges, g.freshId⟩
  else none

/-- Modelled from the spec: `connected(u, v)` connectivity test (section 4.1). -/
def Graph.connected (g : Graph) (u v : Nat) : Bool :=
  g.edges.any (fun e => (e.1 == u && e.2.1 == v) || (e.1 == v && e.2.1 == u))

/-- Modelled from the spec: `add_edge(u, v, kind)` appends a (possibly
    parallel) edge (section 4.1); the endpoint ids are looked up and must exist
    (section 3, invariant I1). -/
def Graph.addEdgeT (g : Graph) (u v : Nat) (et : EType) : Option Graph :=
  if g.hasV u && g.hasV v then
    some ⟨g.vertices, g.edges ++ [(u, v, et)], g.freshId⟩
  else none

def removeFirstEdge : List (Nat × Nat × EType) → Nat → Nat → List (Nat × Nat × EType)
  | [], _, _ => []
  | e :: es, u, v =>
    if (e.1 == u && e.2.1 == v) || (e.1 == v && e.2.1 == u) then es
    else e :: removeFirstEdge es u v

/-- Modelled from the spec: `remove_edge(u, v)` removes one edge between u and
    v, failing (NotFound) when none exists (sections 4.1 and 7). -/
def Graph.removeEdgeS (g : Graph) (u v : Nat) : Option Graph :=
  if g.connected u v then some ⟨g.vertices, removeFirstEdge g.edges u v, g.freshId⟩
  else none

/-- Modelled from the spec: `remove_vertex(id)` cascades to every incident edge
    (section 4.1), failing when the id does not exist. -/
def Graph.removeVertexS (g : Graph) (v : Nat) : Option Graph :=
  if g.hasV v then
    some ⟨g.vertices.filter (fun p => p.1 != v),
          g.edges.filter (fun e => !(e.1 == v || e.2.1 == v)),
          g.freshId⟩
  else none

/-- Outcome of a wrapper method: `ok` and `err` carry the diagram state after
    the call (every error in lib.rs is returned before any mutation); `panic`
    is a call that does not return normally. -/
inductive OpOut (α : Type) where
  | ok (val : α) (g : Graph)
  | err (msg : String) (g : Graph)
  | panic
deriving DecidableEq

def OpOut.isOk {α : Type} : OpOut α → Bool
  | .ok _ _ => true
  | _ => false

/-- Kind decoding used by `add_vertex` and `add_vertex_with_position`
    (lib.rs 84-108): an out-of-range u8 code silently defaults to Z. -/
def decodeVTdefault (k : Nat) : VertexType :=
  if k = 0 then .Boundary
  else if k = 1 then .Z
  else if k = 2 then .X
  else if k = 3 then .H
  else .Z

def ZXGraph.add_vertex (g : Graph) (k : Nat) : Graph × Nat :=
  g.addV (decodeVTdefault k)

def ZXGraph.add_vertex_with_position (g : Graph) (k : Nat) (row col : Rat) : Graph × Nat :=
  let r := Graph.addV g (decodeVTdefault k)
  match (Graph.setRow r.1 r.2 row).bind (fun g2 => Graph.setQubit g2 r.2 col) with
  | some g3 => (g3, r.2)
  | none => (r.1, r.2)   -- unreachable: the id was just added

def ZXGraph.add_edge (g : Graph) (u v : Nat) : Option Graph :=
  g.addEdgeT u v .N

def ZXGraph.add_edge_with_type (g : Graph) (u v : Nat) (k : Nat) : Option Graph :=
  g.addEdgeT u v (if k = 1 then .H else .N)

def ZXGraph.remove_vertex (g : Graph) (v : Nat) : Option Graph :=
  g.removeVertexS v

def ZXGraph.remove_edge (g : Graph) (u v : Nat) : Option Graph :=
  g.removeEdgeS u v

def setEdgeGo (g : Graph) (s t : Nat) (et : EType) : OpOut Unit :=
  match g.removeEdgeS s t with
  | none => .panic
  | some g1 =>
    match g1.addEdgeT s t et with
    | none => .panic
    | some g2 => .ok () g2

/-- lib.rs 133-147: `set_edge_type` checks connectivity first, then the kind
    code, then does the logical replace (remove + re-add). -/
def ZXGraph.set_edge_type (g : Graph) (s t : Nat) (k : Nat) : OpOut Unit :=
  if !(g.connected s t) then .err "Edge does not exist" g
  else if k = 0 then setEdgeGo g s t .N
  else if k = 1 then setEdgeGo g s t .H
  else .err "Invalid edge type. Must be 0 or 1" g

def ZXGraph.set_vertex_position (g : Graph) (v : Nat) (row col : Rat) : Option Graph :=
  (Graph.setRow g v row).bind (fun g1 => Graph.setQubit g1 v col)

def setVTGo (g : Graph) (v : Nat) (vt : VertexType) : OpOut Unit :=
  match g.setVKind v vt with
  | none => .panic
  | some g' => .ok () g'

/-- lib.rs 183-194: `set_vertex_type` validates the kind code (erroring on
    codes above 3) and only then touches the store. -/
def ZXGraph.set_vertex_type (g : Graph) (v : Nat) (k : Nat) : OpOut Unit :=
  if k = 0 then setVTGo g v .Boundary
  else if k = 1 then setVTGo g v .Z
  else if k = 2 then setVTGo g v .X
  else if k = 3 then setVTGo g v .H
  else .err "Invalid vertex type. Must be 0-3" g

def ZXGraph.num_vertices (g : Graph) : Nat := g.vertices.length

def ZXGraph.num_edges (g : Graph) : Nat := g.edges.length

/-- str::trim, restricted to the ASCII whitespace forms Char.isWhitespace
    knows; no claim involves exotic Unicode whitespace. -/
def trimChars (cs : List Char) : List Char :=
  ((cs.dropWhile Char.isWhitespace).reverse.dropWhile Char.isWhitespace).reverse

/-- str::split('/') over the characters of the string. -/
def splitSlash : List Char → List (List Char)
  | [] => [[]]
  | c :: cs =>
    match splitSlash cs with
    | [] => [[c]]   -- unreachable: splitSlash never returns []
    | h :: t => if c = '/' then [] :: h :: t else (c :: h) :: t

def natOfDigits : List Char → Option Nat
  | [] => none
  | cs =>
    if cs.all Char.isDigit then
      some (cs.foldl (fun a c => a * 10 + (c.toNat - 48)) 0)
    else none

/-- Rust `str::parse::<i64>`: an optional sign followed by decimal digits,
    overflow-checked against the i64 range. -/
def parseI64c (cs : List Char) : Option Int :=
  match cs with
  | '+' :: rest => (natOfDigits rest).bind (fun n => if (n : Int) ≤ 2 ^ 63 - 1 then some (n : Int) else none)
  | '-' :: rest => (natOfDigits rest).bind (fun n => if (n : Int) ≤ 2 ^ 63 then some (-(n : Int)) else none)
  | _ => (natOfDigits cs).bind (fun n => if (n : Int) ≤ 2 ^ 63 - 1 then some (n : Int) else none)

/-- Exact rational addition through the normalizing constructor; Rat keeps
    lowest terms (spec invariant I3), matching Rational64. -/
def ratAdd (a b : Rat) : Rat :=
  mkRat (a.num * (b.den : Int) + b.num * (a.den : Int)) (a.den * b.den)

/-- num::rational::Rational64::new — normalizes the sign and reduces, and
    panics when the denominator is zero. -/
def rat64New (n d : Int) : Option Rat :=
  if d = 0 then none else some (mkRat (if d < 0 then -n else n) d.natAbs)

/-- lib.rs 156-180: `set_vertex_phase` trims, splits on '/', parses the parts
    as i64, builds the rational and stores it.  The error strings keep the
    fixed prefix of the formatted Rust messages. -/
def ZXGraph.set_vertex_phase (g : Graph) (v : Nat) (s : String) : OpOut Unit :=
  match splitSlash (trimChars s.data) with
  | [a] =>
    match parseI64c a with
    | none => .err "Invalid numerator" g
    | some n =>
      match g.setPhase v (mkRat n 1) with
      | none => .panic
      | some g' => .ok () g'
  | [a, b] =>
    match parseI64c a with
    | none => .err "Invalid numerator" g
    | some n =>
      match parseI64c b with
      | none => .err "Invalid denominator" g
      | some d =>
        match rat64New n d with
        | none => .panic
        | some q =>
          match g.setPhase v q with
          | none => .panic
          | some g' => .ok () g'
  | _ => .err "Phase must be in format 'num' or 'num/denom'" g

/-- Phase wrap into [0, 2) in units of pi (spec section 4.2 allows either
    consistent convention). -/
def wrap2 (q : Rat) : Rat :=
  mkRat (q.num - 2 * (Int.fdiv q.num (2 * (q.den : Int))) * (q.den : Int)) q.den

/-- Modelled from the spec: the Spider Fusion predicate (section 4.2) — an edge
    of Simple kind whose endpoints are both Z-spiders or both X-spiders (hence
    neither a Boundary). -/
def checkSpiderFusion (g : Graph) (e : Nat × Nat × EType) : Bool :=
  (e.2.2 == EType.N) &&
    (match g.vlookup e.1, g.vlookup e.2.1 with
     | some a, some b =>
       (a.kind == VertexType.Z && b.kind == VertexType.Z) ||
       (a.kind == VertexType.X && b.kind == VertexType.X)
     | _, _ => false)

/-- Modelled from the spec: the Spider Fusion applier (section 4.2) — v0's
    phase becomes (phase v0 + phase v1) wrapped mod 2, v0 inherits all of v1's
    other edges, and the fused edge and v1 are removed. -/
def spiderFusionUnchecked (g : Graph) (e : Nat × Nat × EType) : Graph :=
  let v0 := e.1
  let v1 := e.2.1
  let p1 := ((g.vlookup v1).map VData.phase).getD 0
  ⟨g.vertices.filterMap (fun p =>
      if p.1 == v1 then none
      else if p.1 == v0 then some (p.1, { p.2 with phase := wrap2 (ratAdd p.2.phase p1) })
      else some p),
   (g.edges.erase e).map (fun f =>
      ((if f.1 == v1 then v0 else f.1), (if f.2.1 == v1 then v0 else f.2.1), f.2.2)),
   g.freshId⟩

/-- lib.rs 237-245 composed with the quizx scan: find the first edge whose
    fusion predicate holds and apply the fusion there. -/
def fuseStep (g : Graph) : Option Graph :=
  match g.edges.find? (fun e => checkSpiderFusion g e) with
  | none => none
  | some e => some (spiderFusionUnchecked g e)

def ZXGraph.apply_spider_fusion (g : Graph) : Bool × Graph :=
  match fuseStep g with
  | some g' => (true, g')
  | none => (false, g)

/-- Scan-apply driver counting applications.  The fuel argument is always
    called with (vertex count + 1), which suffices because every applier
    removes at least one vertex. -/
def loopCount (step : Graph → Option Graph) : Nat → Graph → Nat × Graph
  | 0, g => (0, g)
  | fuel + 1, g =>
    match step g with
    | none => (0, g)
    | some g' =>
      let r := loopCount step fuel g'
      (r.1 + 1, r.2)

/-- lib.rs 247-253: count fusions until `apply_spider_fusion` reports false. -/
def ZXGraph.full_spider_fusion (g : Graph) : Nat × Graph :=
  loopCount fuseStep (g.vertices.length + 1) g

def isZX : VertexType → Bool
  | .Z => true
  | .X => true
  | _ => false

def degree (g : Graph) (v : Nat) : Nat :=
  (g.edges.map (fun e => (if e.1 == v then 1 else 0) + (if e.2.1 == v then 1 else 0))).sum

def otherEnd (e : Nat × Nat × EType) (v : Nat) : Nat :=
  if e.1 == v then e.2.1 else e.1

/-- Modelled from the spec: Hadamard-parity composition of the two edges
    removed by Identity Removal (section 4.2); the catch-all kind is treated
    as Simple by rules that do not recognize it (section 3). -/
def etComp (a b : EType) : EType :=
  match a, b with
  | .H, .H => .N
  | .H, _ => .H
  | _, .H => .H
  | _, _ => .N

/-- Modelled from the spec: Identity Removal (section 4.2) — a Z/X vertex with
    phase exactly 0 and degree exactly 2 (self-loops excluded, where the spec
    rule is not meaningful) is removed and its two neighbours joined by the
    parity-composed edge. -/
def idStep (g : Graph) : Option Graph :=
  match g.vertices.find? (fun p =>
      isZX p.2.kind && (p.2.phase == 0) && (degree g p.1 == 2) &&
      !(g.edges.any (fun e => e.1 == p.1 && e.2.1 == p.1))) with
  | none => none
  | some p =>
    let v := p.1
    let inc := g.edges.filter (fun e => e.1 == v || e.2.1 == v)
    let rest := g.edges.filter (fun e => !(e.1 == v || e.2.1 == v))
    match inc with
    | [e1, e2] =>
      some ⟨g.vertices.filter (fun q => q.1 != v),
            rest ++ [(otherEnd e1 v, otherEnd e2 v, etComp e1.2.2 e2.2.2)],
            g.freshId⟩
    | _ => none   -- unreachable: degree 2 without self-loops means two incident edges

def neighborsOf (g : Graph) (v : Nat) : List Nat :=
  (g.edges.filter (fun e => e.1 == v || e.2.1 == v)).map (fun e => otherEnd e v)

def removeFirstH : List (Nat × Nat × EType) → Nat → Nat → List (Nat × Nat × EType)
  | [], _, _ => []
  | e :: es, a, b =>
    if ((e.1 == a && e.2.1 == b) || (e.1 == b && e.2.1 == a)) && e.2.2 == EType.H then es
    else e :: removeFirstH es a b

/-- Toggle a Hadamard edge between a and b: remove one if present, add one
    otherwise (spec sections 4.2, Local Complementation and Pivoting). -/
def toggleH (es : List (Nat × Nat × EType)) (a b : Nat) : List (Nat × Nat × EType) :=
  if es.any (fun e => ((e.1 == a && e.2.1 == b) || (e.1 == b && e.2.1 == a)) && e.2.2 == EType.H) then
    removeFirstH es a b
  else es ++ [(a, b, EType.H)]

def listPairs : List Nat → List (Nat × Nat)
  | [] => []
  | a :: rest => rest.map (fun b => (a, b)) ++ listPairs rest

def addPhase (vs : List (Nat × VData)) (v : Nat) (q : Rat) : List (Nat × VData) :=
  vs.map (fun p => if p.1 == v then (p.1, { p.2 with phase := wrap2 (ratAdd p.2.phase q) }) else p)

/-- Modelled from the spec: the Local Complementation predicate (section 4.2)
    — a Z-spider with phase congruent to plus or minus pi/2, every incident
    edge Hadamard, no self-loop, and every neighbour an existing non-Boundary
    vertex. -/
def lcCheck (g : Graph) (p : Nat × VData) : Bool :=
  (p.2.kind == VertexType.Z) &&
  (wrap2 p.2.phase == mkRat 1 2 || wrap2 p.2.phase == mkRat 3 2) &&
  ((g.edges.filter (fun e => e.1 == p.1 || e.2.1 == p.1)).all (fun e => e.2.2 == EType.H)) &&
  !(g.edges.any (fun e => e.1 == p.1 && e.2.1 == p.1)) &&
  ((neighborsOf g p.1).all (fun w =>
    match g.vlookup w with
    | some d => !(d.kind == VertexType.Boundary)
    | none => false))

/-- Modelled from the spec: the Local Complementation applier (section 4.2) —
    remove the vertex, toggle a Hadamard edge between each pair of its former
    neighbours, and shift each neighbour's phase by the opposite of the removed
    phase. -/
def lcStep (g : Graph) : Option Graph :=
  match g.vertices.find? (fun p => lcCheck g p) with
  | none => none
  | some p =>
    let v := p.1
    let ns := (neighborsOf g v).dedup
    let rest := g.edges.filter (fun e => !(e.1 == v || e.2.1 == v))
    let toggled := (listPairs ns).foldl (fun es ab => toggleH es ab.1 ab.2) rest
    let dq : Rat := if wrap2 p.2.phase == mkRat 1 2 then mkRat (-1) 2 else mkRat 1 2
    let vs := ns.foldl (fun vs w => addPhase vs w dq) (g.vertices.filter (fun q => q.1 != v))
    some ⟨vs, toggled, g.freshId⟩

/-- Modelled from the spec: the Pivoting predicate (section 4.2) — a Hadamard
    edge between two distinct Z-spiders whose phases are congruent to 0 or pi. -/
def pivotCheck (g : Graph) (e : Nat × Nat × EType) : Bool :=
  (e.2.2 == EType.H) && (e.1 != e.2.1) &&
  (match g.vlookup e.1, g.vlookup e.2.1 with
   | some a, some b =>
     a.kind == VertexType.Z && b.kind == VertexType.Z &&
     (wrap2 a.phase == mkRat 0 1 || wrap2 a.phase == mkRat 1 1) &&
     (wrap2 b.phase == mkRat 0 1 || wrap2 b.phase == mkRat 1 1)
   | _, _ => false)

/-- Modelled from the spec: the Pivoting applier (section 4.2) — both matched
    vertices are removed, Hadamard edges are toggled across the three neighbour
    partitions, and surviving neighbours' phases are updated from the removed
    phases (exclusive neighbours gain the opposite side's phase, shared
    neighbours gain both plus pi). -/
def pivotStep (g : Graph) : Option Graph :=
  match g.edges.find? (fun e => pivotCheck g e) with
  | none => none
  | some e =>
    let v0 := e.1
    let v1 := e.2.1
    let p0 := ((g.vlookup v0).map VData.phase).getD 0
    let p1 := ((g.vlookup v1).map VData.phase).getD 0
    let n0 := ((neighborsOf g v0).filter (fun w => w != v0 && w != v1)).dedup
    let n1 := ((neighborsOf g v1).filter (fun w => w != v0 && w != v1)).dedup
    let sh := n0.filter (fun w => n1.contains w)
    let x0 := n0.filter (fun w => !(n1.contains w))
    let x1 := n1.filter (fun w => !(n0.contains w))
    let rest := g.edges.filter (fun f => !(f.1 == v0 || f.2.1 == v0 || f.1 == v1 || f.2.1 == v1))
    let cross := ((x0.map (fun a => x1.map (fun b => (a, b)))).flatten ++
                  (x0.map (fun a => sh.map (fun b => (a, b)))).flatten ++
                  (x1.map (fun a => sh.map (fun b => (a, b)))).flatten)
    let toggled := cross.foldl (fun es ab => toggleH es ab.1 ab.2) rest
    let keep := g.vertices.filter (fun q => q.1 != v0 && q.1 != v1)
    let vs1 := x0.foldl (fun vs w => addPhase vs w p1) keep
    let vs2 := x1.foldl (fun vs w => addPhase vs w p0) vs1
    let vs3 := sh.foldl (fun vs w => addPhase vs w (ratAdd (ratAdd p0 p1) (mkRat 1 1))) vs2
    some ⟨vs3, toggled, g.freshId⟩

/-- quizx spider_simp, modelled from the spec (section 4.3): Spider Fusion
    alone to fixpoint, returning whether any fusion occurred. -/
def ZXGraph.simplify_spiders (g : Graph) : Bool × Graph :=
  let r := ZXGraph.full_spider_fusion g
  (r.1 != 0, r.2)

/-- quizx id_simp, modelled from the spec (section 4.3). -/
def ZXGraph.simplify_identities (g : Graph) : Bool × Graph :=
  let r := loopCount idStep (g.vertices.length + 1) g
  (r.1 != 0, r.2)

/-- quizx local_comp_simp, modelled from the spec (section 4.3). -/
def ZXGraph.simplify_local_comp (g : Graph) : Bool × Graph :=
  let r := loopCount lcStep (g.vertices.length + 1) g
  (r.1 != 0, r.2)

/-- quizx pivot_simp, modelled from the spec (section 4.3). -/
def ZXGraph.simplify_pivots (g : Graph) : Bool × Graph :=
  let r := loopCount pivotStep (g.vertices.length + 1) g
  (r.1 != 0, r.2)

/-- quizx clifford_simp, modelled from the spec (section 4.3): cycle the four
    rule families until a whole cycle produces no change.  The fuel bound
    suffices because a productive cycle removes at least one vertex. -/
def cliffordLoop : Nat → Graph → Bool × Graph
  | 0, g => (false, g)
  | fuel + 1, g =>
    let r1 := ZXGraph.simplify_spiders g
    let r2 := ZXGraph.simplify_identities r1.2
    let r3 := ZXGraph.simplify_local_comp r2.2
    let r4 := ZXGraph.simplify_pivots r3.2
    if r1.1 || r2.1 || r3.1 || r4.1 then (true, (cliffordLoop fuel r4.2).2)
    else (false, g)

def ZXGraph.simplify_clifford (g : Graph) : Bool × Graph :=
  cliffordLoop (g.vertices.length + 1) g

/-- quizx full_simp, modelled from the spec (section 4.3): in this core
    equivalent to simplify_clifford, as no further rules are defined. -/
def ZXGraph.simplify_full (g : Graph) : Bool × Graph :=
  ZXGraph.simplify_clifford g

structure VertexInfo where
  id : Nat
  vertex_type : Nat
  phase : String
  row : Rat
  col : Rat
deriving DecidableEq

structure EdgeInfo where
  source : Nat
  target : Nat
  edge_type : Nat
deriving DecidableEq

/-- The interchange payload at the structural level: the two top-level
    sequences lib.rs 282-287 emits and 289-337 consumes.  The serde string
    layer is the out-of-scope adapter (spec section 1); payloads whose required
    fields are absent or ill-typed are rejected before this structure exists
    and no claim depends on them. -/
structure JsonGraph where
  vertices : List VertexInfo
  edges : List EdgeInfo
deriving DecidableEq

def vtCode : VertexType → Nat
  | .Boundary => 0
  | .Z => 1
  | .X => 2
  | .H => 3

/-- lib.rs 221-235: Wio is emitted as the Simple code 0. -/
def etCode : EType → Nat
  | .N => 0
  | .H => 1
  | .Wio => 0

/-- Rational64 Display as formatted at lib.rs 211; the exact string is never
    read back (from_json ignores phases). -/
def phaseToString (q : Rat) : String :=
  if q.den = 1 then toString q.num else toString q.num ++ "/" ++ toString q.den

def ZXGraph.get_vertices_info (g : Graph) : List VertexInfo :=
  g.vertices.map (fun p => ⟨p.1, vtCode p.2.kind, phaseToString p.2.phase, p.2.row, p.2.col⟩)

def ZXGraph.get_edges_info (g : Graph) : List EdgeInfo :=
  g.edges.map (fun e => ⟨e.1, e.2.1, etCode e.2.2⟩)

/-- lib.rs 282-287: to_json emits the vertex and edge sequences. -/
def ZXGraph.to_jsonS (g : Graph) : JsonGraph :=
  ⟨ZXGraph.get_vertices_info g, ZXGraph.get_edges_info g⟩

/-- lib.rs 299-310: `as u64 ... as u8` truncation followed by the kind match
    whose default arm is Z. -/
def decodeVTu8 (k : Nat) : VertexType :=
  decodeVTdefault (k % 256)

/-- One iteration of the from_json vertex loop (lib.rs 297-318): the entry is
    added with `add_vertex` — which allocates a fresh id, ignoring the entry's
    `id` field — followed by set_row and set_qubit; the phase field is never
    decoded (the TODO at lib.rs 316). -/
def fjVStep (g : Graph) (vi : VertexInfo) : Graph :=
  let r := Graph.addV g (decodeVTu8 vi.vertex_type)
  match (Graph.setRow r.1 r.2 vi.row).bind (fun g2 => Graph.setQubit g2 r.2 vi.col) with
  | some g3 => g3
  | none => r.1   -- unreachable: the id was just added

def fjVertices (g : Graph) (vs : List VertexInfo) : Graph :=
  vs.foldl fjVStep g

/-- lib.rs 320-334: the edge loop of from_json — `add_edge_with_type` with the
    entry's original source/target ids; a missing endpoint makes the store
    lookup fail, which the unit-returning call site cannot surface (none =
    the call does not return normally). -/
def fjEdges : Graph → List EdgeInfo → Option Graph
  | g, [] => some g
  | g, ei :: es =>
    match Graph.addEdgeT g ei.source ei.target (if ei.edge_type % 256 = 1 then .H else .N) with
    | none => none
    | some g' => fjEdges g' es

def ZXGraph.from_jsonS (j : JsonGraph) : Option Graph :=
  fjEdges (fjVertices Graph.new j.vertices) j.edges

/-- The vertex list the from_json vertex loop builds when started at fresh id
    f: one vertex per payload entry, in order, with phase 0. -/
def fjMk : Nat → List VertexInfo → List (Nat × VData)
  | _, [] => []
  | f, vi :: vs => (f, ⟨decodeVTu8 vi.vertex_type, 0, vi.row, vi.col⟩) :: fjMk (f + 1) vs

/-- The diagram after one boolean apply_spider_fusion call (its second
    component); iterating this is how full_spider_fusion advances. -/
def applyIter (g : Graph) : Graph :=
  (ZXGraph.apply_spider_fusion g).2

/-- One driver step as a total function: apply the rule if a match exists,
    otherwise stay put. -/
def stepIter (step : Graph → Option Graph) (g : Graph) : Graph :=
  (step g).getD g

/-- Spec-side (amended) phase-string validity: after trimming, the string is
    "N" or "N/D" with N and D signed decimal integers in i64 range and D
    nonzero. -/
def phaseStrOk (s : String) : Bool :=
  match splitSlash (trimChars s.data) with
  | [a] => (parseI64c a).isSome
  | [a, b] =>
    (parseI64c a).isSome &&
    (match parseI64c b with
     | some d => !(d == 0)
     | none => false)
  | _ => false

/-- Spec-side: phase strings on which the call aborts — both parts parse as
    i64 and the denominator is zero (Rational64::new panics). -/
def phaseStrPanics (s : String) : Bool :=
  match splitSlash (trimChars s.data) with
  | [a, b] =>
    (parseI64c a).isSome &&
    (match parseI64c b with
     | some d => d == 0
     | none => false)
  | _ => false

/-- Concrete scenario 1 diagram: Z-spiders 0 (phase 1/2) and 1 (phase 1/4)
    joined by a Simple edge, plus a Boundary vertex 2 attached to vertex 1 so
    the transfer of the merged vertex's other edges is visible. -/
def scen1Graph : Graph :=
  ⟨[(0, ⟨.Z, mkRat 1 2, 0, 0⟩), (1, ⟨.Z, mkRat 1 4, 0, 0⟩), (2, ⟨.Boundary, 0, 0, 0⟩)],
   [(0, 1, .N), (1, 2, .N)], 3⟩

/-- Expected result of one Spider Fusion on scen1Graph. -/
def scen1After : Graph :=
  ⟨[(0, ⟨.Z, mkRat 3 4, 0, 0⟩), (2, ⟨.Boundary, 0, 0, 0⟩)], [(0, 2, .N)], 3⟩

/-- Two vertices, no edge: used for the set_edge_type NotFound witness. -/
def twoVertsGraph : Graph :=
  ⟨[(0, ⟨.Z, 0, 0, 0⟩), (1, ⟨.X, 0, 0, 0⟩)], [], 2⟩

/-- One Z vertex: used for phase-parsing witnesses. -/
def oneZGraph : Graph :=
  ⟨[(0, ⟨.Z, 0, 0, 0⟩)], [], 1⟩

/-- Two vertices joined by one edge: used for the parallel add_edge witness. -/
def twoVertsEdgeGraph : Graph :=
  ⟨[(0, ⟨.Z, 0, 0, 0⟩), (1, ⟨.X, 0, 0, 0⟩)], [(0, 1, .N)], 2⟩

/-- Two Z-spiders joined by a Simple edge: one fusion is possible. -/
def twoZGraph : Graph :=
  ⟨[(0, ⟨.Z, 0, 0, 0⟩), (1, ⟨.Z, 0, 0, 0⟩)], [(0, 1, .N)], 2⟩

/-- Two Boundary vertices joined by an edge: already stable for every
    strategy (Concrete scenario 4). -/
def boundaryOnlyGraph : Graph :=
  ⟨[(0, ⟨.Boundary, 0, 0, 0⟩), (1, ⟨.Boundary, 0, 0, 0⟩)], [(0, 1, .N)], 2⟩

/-- A diagram with non-contiguous vertex ids {0, 2} and an edge between them —
    reachable by adding three vertices, adding the edge, and removing vertex 1
    (remove_vertex exists in the API, and ids are not renumbered). -/
def gappedIdsGraph : Graph :=
  ⟨[(0, ⟨.Z, 0, 0, 0⟩), (2, ⟨.Z, 0, 0, 0⟩)], [(0, 2, .N)], 3⟩

/-- A contiguous-id diagram used as the round-trip witness. -/
def contiguousGraph : Graph :=
  ⟨[(0, ⟨.Z, 0, 0, 0⟩), (1, ⟨.X, 0, 0, 0⟩)], [(0, 1, .H)], 2⟩

/-- A payload carrying a nonzero phase string, used for the from_json
    phase-dropping witness. -/
def phasedPayload : JsonGraph :=
  ⟨[⟨0, 1, "1/2", 0, 0⟩], []⟩

/-- The diagram that decoding phasedPayload yields. -/
def phasedPayloadRes : Graph :=
  ⟨[(0, ⟨.Z, 0, 0, 0⟩)], [], 1⟩

/- ------------------------------------------------------------------ -/
/- Helper lemmas                                                      -/
/- ------------------------------------------------------------------ -/

theorem vlookup_mem (g : Graph) (v : Nat) (d : VData)
    (h : g.vlookup v = some d) : (v, d) ∈ g.vertices := by
  unfold Graph.vlookup at h
  cases hf : g.vertices.find? (fun p => p.1 == v) with
  | none => rw [hf] at h; simp at h
  | some pr =>
    rw [hf] at h
    simp only [Option.map_some'] at h
    have hpred := List.find?_some hf
    have hmem := List.mem_of_find?_eq_some hf
    obtain ⟨p1, p2⟩ := pr
    simp only [beq_iff_eq] at hpred
    cases h
    cases hpred
    exact hmem

theorem length_filterMap_lt_of_none {α β : Type} (f : α → Option β) :
    ∀ (l : List α) (x : α), x ∈ l → f x = none → (l.filterMap f).length < l.length := by
  intro l
  induction l with
  | nil => intro x hx; cases hx
  | cons a t ih =>
    intro x hx hfx
    rcases List.mem_cons.mp hx with rfl | hx
    · simp only [List.filterMap_cons, hfx, List.length_cons]
      exact Nat.lt_succ_of_le (List.length_filterMap_le f t)
    · cases hfa : f a
      · simp only [List.filterMap_cons, hfa, List.length_cons]
        exact Nat.lt_succ_of_le (le_of_lt (ih x hx hfx))
      · simp only [List.filterMap_cons, hfa, List.length_cons]
        exact Nat.succ_lt_succ (ih x hx hfx)

theorem hasV_iff_mem (g : Graph) (v : Nat) :
    Graph.hasV g v = true ↔ v ∈ g.vertices.map Prod.fst := by
  unfold Graph.hasV Graph.vlookup
  rw [Option.isSome_map']
  rw [List.find?_isSome]
  constructor
  · rintro ⟨p, hp, hpred⟩
    simp only [beq_iff_eq] at hpred
    exact hpred ▸ List.mem_map_of_mem Prod.fst hp
  · intro hv
    obtain ⟨p, hp, hpv⟩ := List.mem_map.mp hv
    exact ⟨p, hp, by simp [hpv]⟩

/- ------------------------------------------------------------------ -/
/- C1 — Spider Fusion on concrete scenario 1                          -/
/- ------------------------------------------------------------------ -/

/-- C1: on the diagram with two Z-spiders of phases 1/2 and 1/4 joined by a
    Simple edge (and a Boundary vertex attached to the second spider, so no
    other fusion site exists), one application of apply_spider_fusion reports
    true and yields the diagram in which the two spiders are merged into the
    surviving Z-spider with phase 3/4, the fused edge and the merged vertex
    are gone, and the merged vertex's other edge now ends at the survivor. -/
theorem spider_fusion_scenario1 :
    ZXGraph.apply_spider_fusion scen1Graph = (true, scen1After) ∧
    scen1After.vertices = [(0, ⟨.Z, mkRat 3 4, 0, 0⟩), (2, ⟨.Boundary, 0, 0, 0⟩)] ∧
    scen1After.edges = [(0, 2, .N)] := by
  refine ⟨by decide, rfl, rfl⟩

/- ------------------------------------------------------------------ -/
/- C2 — set_edge_type on a missing edge                               -/
/- ------------------------------------------------------------------ -/

/-- C2: for every diagram and every pair (u, v) with no current edge,
    set_edge_type returns the NotFound-style error and the diagram after the
    call is exactly the diagram before it (the error is returned before any
    mutation), for every kind code. -/
theorem set_edge_type_not_connected (g : Graph) (u v k : Nat)
    (h : Graph.connected g u v = false) :
    ZXGraph.set_edge_type g u v k = OpOut.err "Edge does not exist" g := by
  simp [ZXGraph.set_edge_type, h]

theorem set_edge_type_not_connected_witness :
    Graph.connected twoVertsGraph 0 1 = false ∧
    ZXGraph.set_edge_type twoVertsGraph 0 1 0 = OpOut.err "Edge does not exist" twoVertsGraph :=
  ⟨by decide, set_edge_type_not_connected twoVertsGraph 0 1 0 (by decide)⟩

/- ------------------------------------------------------------------ -/
/- C7 — add_edge creates parallel edges                               -/
/- ------------------------------------------------------------------ -/

/-- C7: add_edge on a pair of existing vertices that already has an edge
    succeeds and appends a second, parallel Simple edge: the edge list grows
    by exactly that edge, num_edges increases by 1, and the pair stays
    connected. -/
theorem add_edge_parallel (g : Graph) (u v : Nat)
    (hu : Graph.hasV g u = true) (hv : Graph.hasV g v = true)
    (hc : Graph.connected g u v = true) :
    ZXGraph.add_edge g u v = some ⟨g.vertices, g.edges ++ [(u, v, EType.N)], g.freshId⟩ ∧
    ZXGraph.num_edges ⟨g.vertices, g.edges ++ [(u, v, EType.N)], g.freshId⟩
      = ZXGraph.num_edges g + 1 ∧
    Graph.connected ⟨g.vertices, g.edges ++ [(u, v, EType.N)], g.freshId⟩ u v = true := by
  refine ⟨?_, ?_, ?_⟩
  · simp [ZXGraph.add_edge, Graph.addEdgeT, hu, hv]
  · simp [ZXGraph.num_edges]
  · unfold Graph.connected at hc ⊢
    simp only [List.any_append, hc, Bool.true_or]

theorem add_edge_parallel_witness :
    Graph.connected twoVertsEdgeGraph 0 1 = true ∧
    ZXGraph.add_edge twoVertsEdgeGraph 0 1
      = some ⟨twoVertsEdgeGraph.vertices, twoVertsEdgeGraph.edges ++ [(0, 1, EType.N)],
              twoVertsEdgeGraph.freshId⟩ :=
  ⟨by decide, (add_edge_parallel twoVertsEdgeGraph 0 1 (by decide) (by decide) (by decide)).1⟩

/- ------------------------------------------------------------------ -/
/- C5 — operations on a missing vertex id                             -/
/- ------------------------------------------------------------------ -/

/-- C5 counterexample: on the empty diagram, where vertex 0 does not exist,
    none of the four vertex operations returns a NotFound error result:
    remove_vertex and set_vertex_position have no error channel and the call
    does not return normally (store lookup failure, a panic in the compiled
    wrapper), and set_vertex_phase / set_vertex_type likewise reach the store
    unchecked once their argument parsing succeeds. -/
theorem missing_id_counterexample :
    ZXGraph.remove_vertex Graph.new 0 = none ∧
    ZXGraph.set_vertex_phase Graph.new 0 "1/2" = OpOut.panic ∧
    ZXGraph.set_vertex_type Graph.new 0 1 = OpOut.panic ∧
    ZXGraph.set_vertex_position Graph.new 0 0 0 = none :=
  ⟨by decide, by decide, by decide, by decide⟩

/-- C5 amended: none of the four vertex-id operations checks existence or
    returns a NotFound error; with a nonexistent id, a call whose own argument
    parsing succeeds forwards to the store, whose lookup failure aborts the
    call instead of surfacing as an error result, and the diagram is not
    mutated. -/
theorem missing_id_no_notfound (g : Graph) (v : Nat) (r c : Rat)
    (h : Graph.hasV g v = false) :
    ZXGraph.set_vertex_phase g v "1/2" = OpOut.panic ∧
    ZXGraph.set_vertex_type g v 1 = OpOut.panic ∧
    ZXGraph.remove_vertex g v = none ∧
    ZXGraph.set_vertex_position g v r c = none := by
  refine ⟨?_, ?_, ?_, ?_⟩
  · have hred : ZXGraph.set_vertex_phase g v "1/2"
        = (match g.setPhase v (mkRat 1 2) with
           | none => OpOut.panic
           | some g' => OpOut.ok () g') := rfl
    rw [hred]
    simp [Graph.setPhase, h]
  · simp [ZXGraph.set_vertex_type, setVTGo, Graph.setVKind, h]
  · simp [ZXGraph.remove_vertex, Graph.removeVertexS, h]
  · simp [ZXGraph.set_vertex_position, Graph.setRow, h]

theorem missing_id_no_notfound_witness :
    Graph.hasV Graph.new 5 = false ∧ ZXGraph.remove_vertex Graph.new 5 = none :=
  ⟨by decide, (missing_id_no_notfound Graph.new 5 0 0 (by decide)).2.2.1⟩

/- ------------------------------------------------------------------ -/
/- C6 — out-of-range kind codes                                       -/
/- ------------------------------------------------------------------ -/

/-- C6 counterexample: add_vertex with the out-of-range kind code 7 does not
    fail — it mutates the diagram, silently creating a Z vertex. -/
theorem invalid_kind_add_vertex_counterexample :
    ZXGraph.add_vertex Graph.new 7 = (⟨[(0, ⟨.Z, 0, 0, 0⟩)], [], 1⟩, 0) ∧
    ZXGraph.num_vertices (ZXGraph.add_vertex Graph.new 7).1 = 1 :=
  ⟨by decide, by decide⟩

/-- C6 amended: only set_vertex_type (code > 3) and set_edge_type (code > 1,
    on an existing edge) reject out-of-range kind codes, erroring without
    mutation; add_vertex and add_vertex_with_position silently default an
    out-of-range code to Z, and add_edge_with_type treats every code other
    than 1 as Simple, succeeding. -/
theorem kind_code_validation (g : Graph) :
    (∀ v k, 3 < k → ZXGraph.set_vertex_type g v k
        = OpOut.err "Invalid vertex type. Must be 0-3" g) ∧
    (∀ u v k, 1 < k → Graph.connected g u v = true →
        ZXGraph.set_edge_type g u v k = OpOut.err "Invalid edge type. Must be 0 or 1" g) ∧
    (∀ k, 3 < k → ZXGraph.add_vertex g k = ZXGraph.add_vertex g 1) ∧
    (∀ k r c, 3 < k → ZXGraph.add_vertex_with_position g k r c
        = ZXGraph.add_vertex_with_position g 1 r c) ∧
    (∀ u v k, k ≠ 1 → ZXGraph.add_edge_with_type g u v k = Graph.addEdgeT g u v EType.N) := by
  refine ⟨?_, ?_, ?_, ?_, ?_⟩
  · intro v k hk
    have h0 : ¬ k = 0 := by omega
    have h1 : ¬ k = 1 := by omega
    have h2 : ¬ k = 2 := by omega
    have h3 : ¬ k = 3 := by omega
    simp [ZXGraph.set_vertex_type, h0, h1, h2, h3]
  · intro u v k hk hc
    have h0 : ¬ k = 0 := by omega
    have h1 : ¬ k = 1 := by omega
    simp [ZXGraph.set_edge_type, hc, h0, h1]
  · intro k hk
    have h0 : ¬ k = 0 := by omega
    have h1 : ¬ k = 1 := by omega
    have h2 : ¬ k = 2 := by omega
    have h3 : ¬ k = 3 := by omega
    simp [ZXGraph.add_vertex, decodeVTdefault, h0, h1, h2, h3]
  · intro k r c hk
    have h0 : ¬ k = 0 := by omega
    have h1 : ¬ k = 1 := by omega
    have h2 : ¬ k = 2 := by omega
    have h3 : ¬ k = 3 := by omega
    simp [ZXGraph.add_vertex_with_position, decodeVTdefault, h0, h1, h2, h3]
  · intro u v k hk
    simp [ZXGraph.add_edge_with_type, hk]

theorem kind_code_validation_witness :
    3 < 7 ∧ ZXGraph.set_vertex_type Graph.new 0 7
      = OpOut.err "Invalid vertex type. Must be 0-3" Graph.new :=
  ⟨by decide, (kind_code_validation Graph.new).1 0 7 (by decide)⟩

/- ------------------------------------------------------------------ -/
/- C8 — full_spider_fusion counts to the fixpoint                     -/
/- ------------------------------------------------------------------ -/

theorem fuseStep_decr : ∀ (g g' : Graph), fuseStep g = some g' →
    g'.vertices.length < g.vertices.length := by
  intro g g' h
  unfold fuseStep at h
  cases hf : g.edges.find? (fun e => checkSpiderFusion g e) with
  | none => rw [hf] at h; cases h
  | some e =>
    rw [hf] at h
    cases h
    have hck : checkSpiderFusion g e = true := List.find?_some hf
    have hb : ∃ b, g.vlookup e.2.1 = some b := by
      unfold checkSpiderFusion at hck
      cases h1 : g.vlookup e.1 <;> cases h2 : g.vlookup e.2.1 <;>
        rw [h1, h2] at hck
      · simp at hck
      · simp at hck
      · simp at hck
      · exact ⟨_, rfl⟩
    obtain ⟨b, hb⟩ := hb
    have hmem : (e.2.1, b) ∈ g.vertices := vlookup_mem g e.2.1 b hb
    unfold spiderFusionUnchecked
    simp only []
    apply length_filterMap_lt_of_none _ _ _ hmem
    simp

theorem loopCount_fix (step : Graph → Option Graph)
    (hdec : ∀ g g', step g = some g' → g'.vertices.length < g.vertices.length) :
    ∀ (fuel : Nat) (g : Graph), g.vertices.length < fuel →
      step (loopCount step fuel g).2 = none ∧
      (loopCount step fuel g).2 = (stepIter step)^[(loopCount step fuel g).1] g ∧
      ∀ m, m < (loopCount step fuel g).1 → (step ((stepIter step)^[m] g)).isSome = true := by
  intro fuel
  induction fuel with
  | zero => intro g hg; omega
  | succ fuel ih =>
    intro g hg
    cases hs : step g with
    | none =>
      refine ⟨?_, ?_, ?_⟩
      · simp [loopCount, hs]
      · simp [loopCount, hs]
      · simp [loopCount, hs]
    | some g' =>
      have hlt : g'.vertices.length < fuel :=
        lt_of_lt_of_le (hdec g g' hs) (Nat.lt_succ_iff.mp hg)
      obtain ⟨h1, h2, h3⟩ := ih g' hlt
      have hgi : stepIter step g = g' := by simp [stepIter, hs]
      refine ⟨?_, ?_, ?_⟩
      · simpa [loopCount, hs] using h1
      · simp only [loopCount, hs]
        rw [Function.iterate_succ_apply, hgi]
        exact h2
      · intro m hm
        simp only [loopCount, hs] at hm
        cases m with
        | zero => simp [hs]
        | succ m =>
          rw [Function.iterate_succ_apply, hgi]
          exact h3 m (by omega)

theorem applyIter_eq_stepIter : applyIter = stepIter fuseStep := by
  funext g
  unfold applyIter stepIter ZXGraph.apply_spider_fusion
  cases h : fuseStep g <;> simp [h]

/-- C8: full_spider_fusion returns exactly the number of apply_spider_fusion
    steps taken before the fixpoint: the resulting diagram is the count-fold
    iterate of the single-application step from the input, apply_spider_fusion
    reports a match at every earlier iterate, and on the resulting diagram it
    returns false. -/
theorem full_spider_fusion_count (g : Graph) :
    (ZXGraph.apply_spider_fusion (ZXGraph.full_spider_fusion g).2).1 = false ∧
    (ZXGraph.full_spider_fusion g).2 = applyIter^[(ZXGraph.full_spider_fusion g).1] g ∧
    ∀ m, m < (ZXGraph.full_spider_fusion g).1 →
      (ZXGraph.apply_spider_fusion (applyIter^[m] g)).1 = true := by
  obtain ⟨h1, h2, h3⟩ :=
    loopCount_fix fuseStep fuseStep_decr (g.vertices.length + 1) g (Nat.lt_succ_self _)
  rw [applyIter_eq_stepIter]
  unfold ZXGraph.full_spider_fusion
  refine ⟨?_, h2, ?_⟩
  · unfold ZXGraph.apply_spider_fusion
    rw [h1]
  · intro m hm
    have := h3 m hm
    unfold ZXGraph.apply_spider_fusion
    cases hh : fuseStep ((stepIter fuseStep)^[m] g) with
    | none => rw [hh] at this; simp at this
    | some g2 => simp

theorem full_spider_fusion_count_witness :
    (ZXGraph.apply_spider_fusion (ZXGraph.full_spider_fusion twoZGraph).2).1 = false ∧
    0 < (ZXGraph.full_spider_fusion twoZGraph).1 ∧
    (ZXGraph.apply_spider_fusion (applyIter^[0] twoZGraph)).1 = true :=
  ⟨(full_spider_fusion_count twoZGraph).1, by decide,
   (full_spider_fusion_count twoZGraph).2.2 0 (by decide)⟩

/- ------------------------------------------------------------------ -/
/- C9 — boundary-only diagrams are stable for every strategy          -/
/- ------------------------------------------------------------------ -/

theorem allB_vlookup (g : Graph)
    (hB : ∀ p ∈ g.vertices, p.2.kind = VertexType.Boundary)
    (v : Nat) (d : VData) (h : g.vlookup v = some d) :
    d.kind = VertexType.Boundary :=
  hB (v, d) (vlookup_mem g v d h)

theorem allB_fuseStep (g : Graph)
    (hB : ∀ p ∈ g.vertices, p.2.kind = VertexType.Boundary) :
    fuseStep g = none := by
  unfold fuseStep
  have hnone : g.edges.find? (fun e => checkSpiderFusion g e) = none := by
    rw [List.find?_eq_none]
    intro e _
    unfold checkSpiderFusion
    cases h1 : g.vlookup e.1 <;> cases h2 : g.vlookup e.2.1 <;> simp
    have := allB_vlookup g hB _ _ h1
    simp [this]
  rw [hnone]

theorem allB_idStep (g : Graph)
    (hB : ∀ p ∈ g.vertices, p.2.kind = VertexType.Boundary) :
    idStep g = none := by
  unfold idStep
  have hnone : g.vertices.find? (fun p =>
      isZX p.2.kind && (p.2.phase == 0) && (degree g p.1 == 2) &&
      !(g.edges.any (fun e => e.1 == p.1 && e.2.1 == p.1))) = none := by
    rw [List.find?_eq_none]
    intro p hp
    have := hB p hp
    simp [this, isZX]
  rw [hnone]

theorem allB_lcStep (g : Graph)
    (hB : ∀ p ∈ g.vertices, p.2.kind = VertexType.Boundary) :
    lcStep g = none := by
  unfold lcStep
  have hnone : g.vertices.find? (fun p => lcCheck g p) = none := by
    rw [List.find?_eq_none]
    intro p hp
    have := hB p hp
    simp [lcCheck, this]
  rw [hnone]

theorem allB_pivotStep (g : Graph)
    (hB : ∀ p ∈ g.vertices, p.2.kind = VertexType.Boundary) :
    pivotStep g = none := by
  unfold pivotStep
  have hnone : g.edges.find? (fun e => pivotCheck g e) = none := by
    rw [List.find?_eq_none]
    intro e _
    unfold pivotCheck
    cases h1 : g.vlookup e.1 <;> cases h2 : g.vlookup e.2.1 <;> simp
    intro _ _
    have := allB_vlookup g hB _ _ h1
    simp [this]
  rw [hnone]

theorem loopCount_of_none (step : Graph → Option Graph) (g : Graph)
    (hs : step g = none) (n : Nat) :
    loopCount step (n + 1) g = (0, g) := by
  simp [loopCount, hs]

/-- C9: on a diagram whose vertices are all Boundary, every simplification
    entry point reports no change (false or count 0) and returns the diagram
    unchanged. -/
theorem boundary_only_stable (g : Graph)
    (hB : ∀ p ∈ g.vertices, p.2.kind = VertexType.Boundary) :
    ZXGraph.apply_spider_fusion g = (false, g) ∧
    ZXGraph.full_spider_fusion g = (0, g) ∧
    ZXGraph.simplify_spiders g = (false, g) ∧
    ZXGraph.simplify_identities g = (false, g) ∧
    ZXGraph.simplify_local_comp g = (false, g) ∧
    ZXGraph.simplify_pivots g = (false, g) ∧
    ZXGraph.simplify_clifford g = (false, g) ∧
    ZXGraph.simplify_full g = (false, g) := by
  have hf := allB_fuseStep g hB
  have hi := allB_idStep g hB
  have hl := allB_lcStep g hB
  have hp := allB_pivotStep g hB
  have l1 : ZXGraph.full_spider_fusion g = (0, g) := loopCount_of_none fuseStep g hf _
  have l2 : ZXGraph.simplify_spiders g = (false, g) := by
    simp [ZXGraph.simplify_spiders, l1]
  have l3 : ZXGraph.simplify_identities g = (false, g) := by
    simp [ZXGraph.simplify_identities, loopCount_of_none idStep g hi]
  have l4 : ZXGraph.simplify_local_comp g = (false, g) := by
    simp [ZXGraph.simplify_local_comp, loopCount_of_none lcStep g hl]
  have l5 : ZXGraph.simplify_pivots g = (false, g) := by
    simp [ZXGraph.simplify_pivots, loopCount_of_none pivotStep g hp]
  have l6 : ZXGraph.simplify_clifford g = (false, g) := by
    unfold ZXGraph.simplify_clifford
    simp only [cliffordLoop, l2, l3, l4, l5]
    simp
  have l7 : ZXGraph.apply_spider_fusion g = (false, g) := by
    unfold ZXGraph.apply_spider_fusion
    rw [hf]
  exact ⟨l7, l1, l2, l3, l4, l5, l6, by simpa [ZXGraph.simplify_full] using l6⟩

theorem boundary_only_stable_witness :
    (∀ p ∈ boundaryOnlyGraph.vertices, p.2.kind = VertexType.Boundary) ∧
    ZXGraph.simplify_clifford boundaryOnlyGraph = (false, boundaryOnlyGraph) :=
  ⟨by decide, (boundary_only_stable boundaryOnlyGraph (by decide)).2.2.2.2.2.2.1⟩

/- ------------------------------------------------------------------ -/
/- C4 — phase-string parsing                                          -/
/- ------------------------------------------------------------------ -/

/-- C4 counterexample: the phase string with numerator 1 and denominator -2
    (a negative denominator) makes the call succeed — Rational64 normalizes
    the sign — and the string "1/0" does not fail with a parse error:
    Rational64::new panics, so the call aborts. -/
theorem set_vertex_phase_claim_counterexample :
    ZXGraph.set_vertex_phase oneZGraph 0 "1/-2"
      = OpOut.ok () ⟨[(0, ⟨.Z, mkRat (-1) 2, 0, 0⟩)], [], 1⟩ ∧
    ZXGraph.set_vertex_phase oneZGraph 0 "1/0" = OpOut.panic :=
  ⟨by decide, by decide⟩

/-- C4 amended: for an existing vertex, set_vertex_phase succeeds exactly when
    the trimmed string is "N" or "N/D" with N and D signed decimal i64
    integers and D nonzero (any sign of D is accepted); when both parts parse
    and D is zero the call aborts instead of erroring; every error outcome is
    a parse error that leaves the diagram exactly as it was. -/
theorem set_vertex_phase_parse (g : Graph) (v : Nat) (s : String)
    (hv : Graph.hasV g v = true) :
    (ZXGraph.set_vertex_phase g v s).isOk = phaseStrOk s ∧
    ((ZXGraph.set_vertex_phase g v s = OpOut.panic) ↔ phaseStrPanics s = true) ∧
    (∀ m g', ZXGraph.set_vertex_phase g v s = OpOut.err m g' → g' = g) := by
  unfold ZXGraph.set_vertex_phase phaseStrOk phaseStrPanics
  cases hsp : splitSlash (trimChars s.data) with
  | nil => simp [OpOut.isOk]
  | cons a t =>
    cases t with
    | nil =>
      cases hpa : parseI64c a with
      | none =>
        refine ⟨by simp [hpa, OpOut.isOk], by simp [hpa], ?_⟩
        simp only [hpa]
        intro m g' h
        simp only [OpOut.err.injEq] at h
        exact h.2.symm
      | some n =>
        simp [hpa, Graph.setPhase, hv, OpOut.isOk]
    | cons b t2 =>
      cases t2 with
      | nil =>
        cases hpa : parseI64c a with
        | none =>
          refine ⟨by simp [hpa, OpOut.isOk], by simp [hpa], ?_⟩
          simp only [hpa]
          intro m g' h
          simp only [OpOut.err.injEq] at h
          exact h.2.symm
        | some n =>
          cases hpb : parseI64c b with
          | none =>
            refine ⟨by simp [hpa, hpb, OpOut.isOk], by simp [hpa, hpb], ?_⟩
            simp only [hpa, hpb]
            intro m g' h
            simp only [OpOut.err.injEq] at h
            exact h.2.symm
          | some d =>
            by_cases hd : d = 0
            · subst hd
              simp [hpa, hpb, rat64New, OpOut.isOk]
            · simp [hpa, hpb, rat64New, hd, Graph.setPhase, hv, OpOut.isOk]
      | cons c t3 =>
        refine ⟨by simp [OpOut.isOk], by simp, ?_⟩
        intro m g' h
        simp only [OpOut.err.injEq] at h
        exact h.2.symm

theorem set_vertex_phase_parse_witness :
    Graph.hasV oneZGraph 0 = true ∧
    (ZXGraph.set_vertex_phase oneZGraph 0 "1/2").isOk = phaseStrOk "1/2" :=
  ⟨by decide, (set_vertex_phase_parse oneZGraph 0 "1/2" (by decide)).1⟩

/- ------------------------------------------------------------------ -/
/- C3 / C10 — interchange round-trip                                  -/
/- ------------------------------------------------------------------ -/

theorem find?_fresh_none (vs : List (Nat × VData)) (f : Nat)
    (h : ∀ p ∈ vs, p.1 < f) : vs.find? (fun p => p.1 == f) = none := by
  rw [List.find?_eq_none]
  intro p hp
  have := h p hp
  simp
  omega

theorem map_if_eq_id (vs : List (Nat × VData)) (f : Nat)
    (h : ∀ p ∈ vs, p.1 < f) (e : Nat × VData → Nat × VData) :
    vs.map (fun p => if p.1 = f then e p else p) = vs := by
  induction vs with
  | nil => rfl
  | cons a t ih =>
    have ha := h a (List.mem_cons_self a t)
    simp only [List.map_cons]
    rw [if_neg (by omega)]
    rw [ih (fun p hp => h p (List.mem_cons_of_mem a hp))]

theorem find?_append_right (vs : List (Nat × VData)) (x : Nat × VData) (f : Nat)
    (h : ∀ p ∈ vs, p.1 < f) (hx : x.1 = f) :
    (vs ++ [x]).find? (fun p => p.1 == f) = some x := by
  induction vs with
  | nil => simp [List.find?, hx]
  | cons a t ih =>
    have ha := h a (List.mem_cons_self a t)
    simp only [List.cons_append, List.find?_cons]
    have : (a.1 == f) = false := by simp; omega
    rw [this]
    exact ih (fun p hp => h p (List.mem_cons_of_mem a hp))

theorem setRow_fresh (vs : List (Nat × VData)) (E : List (Nat × Nat × EType))
    (f fi : Nat) (d : VData) (r : Rat) (hw : ∀ p ∈ vs, p.1 < f) :
    Graph.setRow ⟨vs ++ [(f, d)], E, fi⟩ f r
      = some ⟨vs ++ [(f, { d with row := r })], E, fi⟩ := by
  unfold Graph.setRow Graph.hasV Graph.vlookup
  simp only []
  rw [find?_append_right vs (f, d) f hw rfl]
  simp only [Option.map_some', Option.isSome_some, if_pos]
  simp [List.map_append]
  exact map_if_eq_id vs f hw _

theorem setQubit_fresh (vs : List (Nat × VData)) (E : List (Nat × Nat × EType))
    (f fi : Nat) (d : VData) (c : Rat) (hw : ∀ p ∈ vs, p.1 < f) :
    Graph.setQubit ⟨vs ++ [(f, d)], E, fi⟩ f c
      = some ⟨vs ++ [(f, { d with col := c })], E, fi⟩ := by
  unfold Graph.setQubit Graph.hasV Graph.vlookup
  simp only []
  rw [find?_append_right vs (f, d) f hw rfl]
  simp only [Option.map_some', Option.isSome_some, if_pos]
  simp [List.map_append]
  exact map_if_eq_id vs f hw _

theorem fjVStep_eq (g : Graph) (vi : VertexInfo)
    (hw : ∀ p ∈ g.vertices, p.1 < g.freshId) :
    fjVStep g vi
      = ⟨g.vertices ++ [(g.freshId, ⟨decodeVTu8 vi.vertex_type, 0, vi.row, vi.col⟩)],
         g.edges, g.freshId + 1⟩ := by
  unfold fjVStep Graph.addV
  simp only []
  rw [setRow_fresh g.vertices g.edges g.freshId (g.freshId + 1) _ vi.row hw]
  simp only [Option.some_bind]
  rw [setQubit_fresh g.vertices g.edges g.freshId (g.freshId + 1) _ vi.col hw]

theorem fjVertices_eq : ∀ (vs : List VertexInfo) (g : Graph),
    (∀ p ∈ g.vertices, p.1 < g.freshId) →
    fjVertices g vs = ⟨g.vertices ++ fjMk g.freshId vs, g.edges, g.freshId + vs.length⟩ := by
  intro vs
  induction vs with
  | nil =>
    intro g hw
    simp [fjVertices, fjMk]
  | cons vi vs ih =>
    intro g hw
    have hstep := fjVStep_eq g vi hw
    have hw' : ∀ p ∈ (fjVStep g vi).vertices, p.1 < (fjVStep g vi).freshId := by
      rw [hstep]
      intro p hp
      rcases List.mem_append.mp hp with hmem | hmem
      · exact Nat.lt_succ_of_lt (hw p hmem)
      · rw [List.mem_singleton.mp hmem]
        exact Nat.lt_succ_self _
    have hfold : fjVertices g (vi :: vs) = fjVertices (fjVStep g vi) vs := by
      simp [fjVertices]
    rw [hfold, ih _ hw', hstep]
    have hlen : g.freshId + 1 + vs.length = g.freshId + (vs.length + 1) := by omega
    simp [fjMk, List.append_assoc, hlen]

theorem fjMk_ids : ∀ (f : Nat) (vs : List VertexInfo),
    (fjMk f vs).map Prod.fst = List.range' f vs.length := by
  intro f vs
  induction vs generalizing f with
  | nil => simp [fjMk]
  | cons vi vs ih => simp [fjMk, List.range', ih]

theorem fjMk_kinds : ∀ (f : Nat) (vs : List VertexInfo),
    (fjMk f vs).map (fun p => p.2.kind) = vs.map (fun vi => decodeVTu8 vi.vertex_type) := by
  intro f vs
  induction vs generalizing f with
  | nil => rfl
  | cons vi vs ih => simp [fjMk, ih]

theorem fjMk_length : ∀ (f : Nat) (vs : List VertexInfo), (fjMk f vs).length = vs.length := by
  intro f vs
  induction vs generalizing f with
  | nil => rfl
  | cons vi vs ih => simp [fjMk, ih]

theorem fjMk_phase0 : ∀ (f : Nat) (vs : List VertexInfo) (p : Nat × VData),
    p ∈ fjMk f vs → p.2.phase = 0 := by
  intro f vs
  induction vs generalizing f with
  | nil => intro p hp; cases hp
  | cons vi vs ih =>
    intro p hp
    rcases List.mem_cons.mp hp with rfl | hp
    · rfl
    · exact ih _ p hp

theorem fjEdges_eq : ∀ (es : List EdgeInfo) (g : Graph),
    (∀ ei ∈ es, Graph.hasV g ei.source = true ∧ Graph.hasV g ei.target = true) →
    fjEdges g es = some ⟨g.vertices,
      g.edges ++ es.map (fun ei => (ei.source, ei.target,
        if ei.edge_type % 256 = 1 then EType.H else EType.N)),
      g.freshId⟩ := by
  intro es
  induction es with
  | nil =>
    intro g h
    simp [fjEdges]
  | cons ei es ih =>
    intro g h
    obtain ⟨hs, ht⟩ := h ei (List.mem_cons_self ei es)
    rw [fjEdges]
    simp only [Graph.addEdgeT, hs, ht, Bool.and_self, if_pos]
    rw [ih ⟨g.vertices, g.edges ++ [(ei.source, ei.target,
          if ei.edge_type % 256 = 1 then EType.H else EType.N)], g.freshId⟩
        (fun x hx => h x (List.mem_cons_of_mem ei hx))]
    simp

theorem fjEdges_vertices : ∀ (es : List EdgeInfo) (g g' : Graph),
    fjEdges g es = some g' → g'.vertices = g.vertices := by
  intro es
  induction es with
  | nil =>
    intro g g' h
    simp [fjEdges] at h
    rw [← h]
  | cons ei es ih =>
    intro g g' h
    rw [fjEdges] at h
    cases ha : Graph.addEdgeT g ei.source ei.target
        (if ei.edge_type % 256 = 1 then EType.H else EType.N) with
    | none => rw [ha] at h; cases h
    | some g1 =>
      rw [ha] at h
      have h1 := ih g1 g' h
      unfold Graph.addEdgeT at ha
      by_cases hc : (Graph.hasV g ei.source && Graph.hasV g ei.target) = true
      · rw [if_pos hc] at ha
        injection ha with ha
        rw [h1, ← ha]
      · rw [if_neg hc] at ha
        cases ha

theorem decode_vtCode (k : VertexType) : decodeVTu8 (vtCode k) = k := by
  cases k <;> rfl

theorem decode_encode_edges (es : List (Nat × Nat × EType))
    (h : ∀ e ∈ es, e.2.2 ≠ EType.Wio) :
    es.map (fun e => ((e.1 : Nat), e.2.1,
      if (etCode e.2.2) % 256 = 1 then EType.H else EType.N)) = es := by
  induction es with
  | nil => rfl
  | cons e t ih =>
    obtain ⟨a, b, et⟩ := e
    have he := h _ (List.mem_cons_self _ t)
    simp only [List.map_cons]
    rw [ih (fun x hx => h x (List.mem_cons_of_mem _ hx))]
    cases et
    · rfl
    · rfl
    · exact absurd rfl he

/-- C10: from_json never decodes phases — whatever phase strings the payload
    carries, every vertex of any successfully decoded diagram has phase 0
    (the vertex loop adds phase-0 vertices and never sets a phase; the edge
    loop does not touch vertices). -/
theorem from_json_drops_phases (j : JsonGraph) (g' : Graph)
    (h : ZXGraph.from_jsonS j = some g') :
    ∀ p ∈ g'.vertices, p.2.phase = 0 := by
  unfold ZXGraph.from_jsonS at h
  have hV := fjVertices_eq j.vertices Graph.new (by simp [Graph.new])
  rw [hV] at h
  have hvert := fjEdges_vertices j.edges _ g' h
  rw [hvert]
  intro p hp
  simp only [Graph.new, List.nil_append] at hp
  exact fjMk_phase0 _ _ p hp

theorem from_json_drops_phases_witness :
    ZXGraph.from_jsonS phasedPayload = some phasedPayloadRes ∧
    ∀ p ∈ phasedPayloadRes.vertices, p.2.phase = 0 :=
  ⟨by decide, from_json_drops_phases phasedPayload phasedPayloadRes (by decide)⟩

/-- C3 counterexample: the diagram with vertices {0, 2} (ids left
    non-contiguous by a remove_vertex) and the edge (0, 2) round-trips to a
    failure: from_json renumbers vertices from 0 while edges keep the original
    ids, so the edge loop looks up the missing vertex 2 and the decode does
    not return Ok. -/
theorem json_roundtrip_counterexample :
    ZXGraph.from_jsonS (ZXGraph.to_jsonS gappedIdsGraph) = none := by decide

/-- C3 amended: for a diagram whose vertex ids are exactly 0..n-1 in order,
    whose edges' endpoints exist (invariant I1), and whose edges are all
    Simple or Hadamard, from_json on the to_json output returns Ok and the
    decoded diagram has the same vertex count, edge count, vertex-kind list
    and edge list (hence the same kind multisets). -/
theorem json_roundtrip_contiguous (g : Graph)
    (hids : g.vertices.map Prod.fst = List.range g.vertices.length)
    (hI1 : ∀ e ∈ g.edges, e.1 ∈ g.vertices.map Prod.fst ∧ e.2.1 ∈ g.vertices.map Prod.fst)
    (hwio : ∀ e ∈ g.edges, e.2.2 ≠ EType.Wio) :
    ∃ g', ZXGraph.from_jsonS (ZXGraph.to_jsonS g) = some g' ∧
      g'.vertices.length = g.vertices.length ∧
      g'.edges.length = g.edges.length ∧
      g'.vertices.map (fun p => p.2.kind) = g.vertices.map (fun p => p.2.kind) ∧
      g'.edges = g.edges := by
  unfold ZXGraph.from_jsonS ZXGraph.to_jsonS
  simp only []
  have hV : fjVertices Graph.new (ZXGraph.get_vertices_info g)
      = ⟨fjMk 0 (ZXGraph.get_vertices_info g), [],
         0 + (ZXGraph.get_vertices_info g).length⟩ := by
    have := fjVertices_eq (ZXGraph.get_vertices_info g) Graph.new (by simp [Graph.new])
    simpa [Graph.new] using this
  rw [hV]
  have hvlen : (ZXGraph.get_vertices_info g).length = g.vertices.length := by
    simp [ZXGraph.get_vertices_info]
  have hids' : (fjMk 0 (ZXGraph.get_vertices_info g)).map Prod.fst
      = List.range g.vertices.length := by
    rw [fjMk_ids, hvlen, List.range_eq_range']
  have hE := fjEdges_eq (ZXGraph.get_edges_info g)
      ⟨fjMk 0 (ZXGraph.get_vertices_info g), [],
       0 + (ZXGraph.get_vertices_info g).length⟩ ?hmem
  case hmem =>
    intro ei hei
    obtain ⟨e, he, heq⟩ := List.mem_map.mp hei
    obtain ⟨h1, h2⟩ := hI1 e he
    rw [← heq]
    constructor
    · rw [hasV_iff_mem]
      simp only []
      rw [hids']
      rw [hids] at h1
      exact h1
    · rw [hasV_iff_mem]
      simp only []
      rw [hids']
      rw [hids] at h2
      exact h2
  rw [hE]
  refine ⟨_, rfl, ?_, ?_, ?_, ?_⟩
  · simp [fjMk_length, hvlen]
  · simp [ZXGraph.get_edges_info]
  · rw [fjMk_kinds]
    simp only [ZXGraph.get_vertices_info, List.map_map]
    simp [Function.comp, decode_vtCode]
  · simp only [ZXGraph.get_edges_info, List.map_map, List.nil_append]
    simpa [Function.comp] using decode_encode_edges g.edges hwio

theorem json_roundtrip_contiguous_witness :
    (contiguousGraph.vertices.map Prod.fst = List.range contiguousGraph.vertices.length) ∧
    (∃ g', ZXGraph.from_jsonS (ZXGraph.to_jsonS contiguousGraph) = some g' ∧
      g'.vertices.length = contiguousGraph.vertices.length ∧
      g'.edges.length = contiguousGraph.edges.length ∧
      g'.vertices.map (fun p => p.2.kind) = contiguousGraph.vertices.map (fun p => p.2.kind) ∧
      g'.edges = contiguousGraph.edges) :=
  ⟨by decide, json_roundtrip_contiguous contiguousGraph (by decide) (by decide) (by decide)⟩
